import Mathlib

/-!
Verification of the Eikon Vulkan device/queue negotiation subsystem.

Shallow embedding of the Rust sources under src/src/backend/vulkan/
(utils.rs, base.rs, queue.rs, context.rs).  Rust machine integers are
modelled as Nat (with explicit mod 2^32 where overflow is reachable),
fallible calls return Option/Except, and a Rust panic (unwrap, index out
of bounds, fatal macro) is modelled as Option.none.
-/

namespace Eikon

namespace Utils

/-- Embedding of Rust's str split on the "." pattern used by to_version
(utils.rs).  A one-character separator pattern splits at each occurrence
of the character, keeping empty pieces, and an empty input yields one
empty piece, exactly as Rust's split does. -/
def split_chars (sep : Char) : List Char → List (List Char)
  | [] => [[]]
  | c :: rest =>
    if c = sep then [] :: split_chars sep rest
    else
      match split_chars sep rest with
      | [] => [[c]]
      | h :: t => (c :: h) :: t

/-- version.split on the "." pattern, as a function on String. -/
def split_on_dot (s : String) : List String :=
  (split_chars '.' s.data).map (fun cs => String.mk cs)

/-- Embedding of str::parse for u32 (used by to_version in utils.rs):
an optional leading plus sign, then at least one ASCII digit, value at
most u32 MAX; none models a parse error (which to_version unwraps,
panicking). -/
def parse_u32 (s : String) : Option Nat :=
  let cs :=
    match s.data with
    | '+' :: rest => rest
    | other => other
  if cs = [] then none
  else if cs.all (fun c => c.isDigit) then
    let v := cs.foldl (fun a c => a * 10 + (c.toNat - 48)) 0
    if v < 2 ^ 32 then some v else none
  else none

/-- Embedding of ash's vk::make_api_version on u32 values:
(variant shifted left 29) or (major shifted left 22) or
(minor shifted left 12) or patch, each shift truncated to 32 bits as the
Rust u32 shift is. -/
def make_api_version (variant major minor patch : Nat) : Nat :=
  ((variant <<< 29) % 2 ^ 32) |||
    ((major <<< 22) % 2 ^ 32) |||
    ((minor <<< 12) % 2 ^ 32) |||
    (patch % 2 ^ 32)

/-- The spec's reference packing formula, written from the spec's words
(section 3 invariant): (variant shl 29) or (major shl 22) or
(minor shl 12) or patch, with no truncation.  Used to compare the code's
packing against the spec for C8. -/
def reference_packing (variant major minor patch : Nat) : Nat :=
  (variant <<< 29) ||| (major <<< 22) ||| (minor <<< 12) ||| patch

/-- Embedding of to_version (utils.rs): split on ".", take the first
three components, parse each as u32 with unwrap (a failed parse or a
missing component is a panic, modelled by none), then pack via
vk::make_api_version with variant 0. -/
def to_version (s : String) : Option Nat := do
  let parts := split_on_dot s
  let major_str ← parts[0]?
  let major ← parse_u32 major_str
  let minor_str ← parts[1]?
  let minor ← parse_u32 minor_str
  let patch_str ← parts[2]?
  let patch ← parse_u32 patch_str
  pure (make_api_version 0 major minor patch)

/-- Embedding of to_c_str (utils.rs): CString::new(s).unwrap().
CString::new fails exactly when the string holds an interior NUL byte;
the unwrap turns that failure into a panic, modelled by none. -/
def to_c_str (s : String) : Option String :=
  if s.data.contains (Char.ofNat 0) then none else some s

/-- Operation flag constants from utils.rs. -/
def GRAPHICS_OP : Nat := 1
def COMPUTE_OP : Nat := 2
def TRANSFER_OP : Nat := 4
def PRESENT_OP : Nat := 0x80000000

end Utils

/-- The error enum of backend/vulkan/errors.rs.  That file is not under
src/; the constructor and its usize payload are taken from its uses in
base.rs (Error::ValidationLayerNotSupported(offset)) and in
tests/vulkan/base.rs. -/
inductive Error where
  | ValidationLayerNotSupported (index : Nat)
deriving DecidableEq

namespace Base

open Utils

/-- Embedding of BaseConfig::validate_layer_availability (base.rs).
The first argument is the config's validation_layers field, the second
the layer names reported by enumerate_instance_layer_properties.  The
HashSet of requested names is modelled as the dedup of the requested
list; HashSet::remove of a reported name is List.erase (each name is
stored at most once); is_empty and len are the list's emptiness and
length. -/
def validate_layer_availability (validation_layers reported : List String) :
    Except Error Unit :=
  if reported.length = 0 then Except.ok ()
  else
    let layer_list := reported.foldl (fun acc name => acc.erase name) validation_layers.dedup
    if layer_list = [] then Except.ok ()
    else Except.error (Error.ValidationLayerNotSupported (validation_layers.length - layer_list.length))

/-- Written from the spec's words for C1: the index, within the
requested list's order, of the first requested layer absent from the
reported set.  Compared against the code's returned index. -/
def spec_first_missing_index (requested reported : List String) : Option Nat :=
  requested.findIdx? (fun l => decide (l ∉ reported))

end Base

namespace Queue

/-- QueueFamily (queue.rs): queue count and per-queue priorities.  The
count field is a u32; it only ever grows by one per successful
insert_operation, and at most operations.length (four) insertions can
ever succeed, so u32 overflow is unreachable and Nat addition is exact.
Priorities are f32, but the only value the code ever stores is the
literal 1.0, which is exact; they are modelled as Rat. -/
structure QueueFamily where
  count : Nat
  priorities : List Rat
deriving DecidableEq

/-- QueueFamily::single() (queue.rs): one queue with priority 1.0. -/
def QueueFamily.single : QueueFamily :=
  { count := 1, priorities := [(1 : Rat)] }

/-- QueueFamilyHandle (queue.rs): family index and offset within it. -/
structure QueueFamilyHandle where
  index : Nat
  offset : Nat
deriving DecidableEq

/-- The op_indices::COUNT constant (queue.rs). -/
def COUNT : Nat := 4

/-- QueueSelections (queue.rs): per-family-index optional allocation and
per-operation-index optional handle. -/
structure QueueSelections where
  families : List (Option QueueFamily)
  operations : List (Option QueueFamilyHandle)
deriving DecidableEq

/-- QueueSelections::new (queue.rs): vec of None per family index and a
vec of COUNT None operation slots. -/
def QueueSelections.new (family_count : Nat) : QueueSelections :=
  { families := List.replicate family_count none
    operations := List.replicate COUNT none }

/-- Embedding of QueueSelections::insert_operation (queue.rs).  Rust
indexes operations[operation] first (a panic if out of bounds, modelled
by none), returns Err with the state untouched when the slot is already
occupied, and otherwise indexes families[family_index]: an existing
family gets the new handle at offset = its count, the count incremented
and a 1.0 priority pushed; a missing family is created as single() with
the handle at offset 0. -/
def insert_operation (s : QueueSelections) (operation family_index : Nat) :
    Option (QueueSelections × Except String Unit) :=
  match s.operations[operation]? with
  | none => none
  | some (some _) => some (s, Except.error ("Operation already exists!"))
  | some none =>
    match s.families[family_index]? with
    | none => none
    | some (some handle) =>
      some
        ({ families := s.families.set family_index
              (some { count := handle.count + 1, priorities := handle.priorities ++ [(1 : Rat)] })
           operations := s.operations.set operation
              (some { index := family_index, offset := handle.count }) },
          Except.ok ())
    | some none =>
      some
        ({ families := s.families.set family_index (some QueueFamily.single)
           operations := s.operations.set operation
              (some { index := family_index, offset := 0 }) },
          Except.ok ())

/-- The fields of a vk::DeviceQueueCreateInfo that
QueueSelections::to_vk_creation_info (queue.rs) fills from its state. -/
structure DeviceQueueCreateInfo where
  queue_family_index : Nat
  queue_count : Nat
  queue_priorities : List Rat
deriving DecidableEq

/-- The enumerate-and-push loop of to_vk_creation_info (queue.rs),
carrying the running enumeration index. -/
def creation_info_aux (index : Nat) : List (Option QueueFamily) → List DeviceQueueCreateInfo
  | [] => []
  | none :: rest => creation_info_aux (index + 1) rest
  | some qf :: rest =>
    { queue_family_index := index, queue_count := qf.count, queue_priorities := qf.priorities } ::
      creation_info_aux (index + 1) rest

/-- Embedding of QueueSelections::to_vk_creation_info (queue.rs): one
create-info per Some family, in enumeration order. -/
def to_vk_creation_info (s : QueueSelections) : List DeviceQueueCreateInfo :=
  creation_info_aux 0 s.families

/-- States reachable from QueueSelections::new by any sequence of
non-panicking insert_operation calls (Err calls return the state
unchanged and are included). -/
inductive Reachable : QueueSelections → Prop where
  | init (family_count : Nat) : Reachable (QueueSelections.new family_count)
  | step {s s' : QueueSelections} {operation family_index : Nat} {r : Except String Unit} :
      Reachable s → insert_operation s operation family_index = some (s', r) → Reachable s'

/-- The structural invariant maintained by insert_operation: every
assigned handle points at an allocated family and at an offset below its
count, handles of distinct operations into the same family carry
distinct offsets, and every allocated family has at least one queue with
one priority per queue. -/
def Inv (s : QueueSelections) : Prop :=
  (∀ (i : Nat) (h : QueueFamilyHandle), s.operations[i]? = some (some h) →
      ∃ qf : QueueFamily, s.families[h.index]? = some (some qf) ∧ h.offset < qf.count) ∧
  (∀ (i j : Nat) (h1 h2 : QueueFamilyHandle), i ≠ j → s.operations[i]? = some (some h1) →
      s.operations[j]? = some (some h2) → h1.index = h2.index → h1.offset ≠ h2.offset) ∧
  (∀ (f : Nat) (qf : QueueFamily), s.families[f]? = some (some qf) →
      1 ≤ qf.count ∧ qf.priorities.length = qf.count)

/-- The state reached from QueueSelections::new(2) by inserting
operation 0 into family 0. -/
def example_state1 : QueueSelections :=
  { families := [some { count := 1, priorities := [(1 : Rat)] }, none]
    operations := [some { index := 0, offset := 0 }, none, none, none] }

/-- The state reached from example_state1 by inserting operation 1 into
family 0. -/
def example_state2 : QueueSelections :=
  { families := [some { count := 2, priorities := [(1 : Rat), (1 : Rat)] }, none]
    operations := [some { index := 0, offset := 0 }, some { index := 0, offset := 1 }, none, none] }

end Queue

namespace Context

open Utils

/-- The slice of vk::PhysicalDeviceProperties that the code reads:
device_type.  vk::PhysicalDeviceType::DISCRETE_GPU is the raw value 2. -/
structure PhysicalDeviceProperties where
  device_type : Nat
deriving DecidableEq

def DISCRETE_GPU : Nat := 2

/-- vk::PhysicalDeviceFeatures is a bundle of feature booleans; the code
only ever constructs PhysicalDeviceFeatures::default() (all features
disabled) and passes the bundle through, so it is modelled opaquely. -/
structure PhysicalDeviceFeatures where
  bits : Nat
deriving DecidableEq

def PhysicalDeviceFeatures.default : PhysicalDeviceFeatures :=
  { bits := 0 }

/-- Embedding of default_device_mapper (context.rs): accept only a
discrete GPU, answering the default feature set. -/
def default_device_mapper (properties : PhysicalDeviceProperties)
    (_device_features : PhysicalDeviceFeatures) : Option PhysicalDeviceFeatures :=
  if properties.device_type ≠ DISCRETE_GPU then none
  else some PhysicalDeviceFeatures.default

/-- SurfaceProperties (context.rs); capabilities are opaque driver
data. -/
structure SurfaceProperties where
  surface_capabilities : Nat
  formats : List Nat
  present_modes : List Nat
deriving DecidableEq

/-- One enumerated physical device as the driver reports it: the data
the enumeration loop of obtain_physical_devices queries per device.
Handles and surface formats/present modes are opaque. -/
structure PhysicalDeviceDesc where
  device : Nat
  properties : PhysicalDeviceProperties
  features : PhysicalDeviceFeatures
  extensions : List String
  surface_capabilities : Nat
  surface_formats : List Nat
  present_modes : List Nat
deriving DecidableEq

/-- PhysicalDeviceInfo (context.rs). -/
structure PhysicalDeviceInfo where
  device : Nat
  features : PhysicalDeviceFeatures
  surface_properties : SurfaceProperties
deriving DecidableEq

/-- The loop of ContextConfigurator::validate_physical_device_extensions
(context.rs): walk the device-reported extension names; a reported name
whose HashSet::remove from the required set fails (it is not in the
remaining required set) returns false immediately; after the walk the
check passes only if the required set was emptied.  The HashSet of
required names is modelled as the dedup of the required list, remove as
List.erase. -/
def validate_ext_go : List String → List String → Bool
  | extension_req, [] => extension_req.isEmpty
  | extension_req, name :: rest =>
    if name ∈ extension_req then validate_ext_go (extension_req.erase name) rest
    else false

/-- Embedding of validate_physical_device_extensions (context.rs),
taking the configurator's device_extensions and the names reported by
enumerate_device_extension_properties for one device. -/
def validate_physical_device_extensions (device_extensions device_reported : List String) : Bool :=
  validate_ext_go device_extensions.dedup device_reported

/-- Embedding of obtain_device_surface_properties (context.rs): the
per-device surface queries succeed (fatal otherwise, out of model), and
the device is filtered out (None) when its formats or present modes come
back empty. -/
def obtain_device_surface_properties (d : PhysicalDeviceDesc) : Option SurfaceProperties :=
  if d.surface_formats.isEmpty ∨ d.present_modes.isEmpty then none
  else
    some
      { surface_capabilities := d.surface_capabilities
        formats := d.surface_formats
        present_modes := d.present_modes }

/-- Embedding of the enumeration loop of obtain_physical_devices
(context.rs): per device, query properties and features, drop it if the
extension check fails, then if surface properties and the device mapper
both succeed retain it as PhysicalDeviceInfo; a rejected device only
continues the loop. -/
def obtain_physical_devices
    (device_mapper : PhysicalDeviceProperties → PhysicalDeviceFeatures → Option PhysicalDeviceFeatures)
    (device_extensions : List String) : List PhysicalDeviceDesc → List PhysicalDeviceInfo
  | [] => []
  | d :: rest =>
    if validate_physical_device_extensions device_extensions d.extensions = false then
      obtain_physical_devices device_mapper device_extensions rest
    else
      match obtain_device_surface_properties d with
      | some surface_properties =>
        match device_mapper d.properties d.features with
        | some features =>
          { device := d.device, features := features, surface_properties := surface_properties } ::
            obtain_physical_devices device_mapper device_extensions rest
        | none => obtain_physical_devices device_mapper device_extensions rest
      | none => obtain_physical_devices device_mapper device_extensions rest

/-- context.rs's own QueueFamily struct (distinct from queue.rs): family
index, count and priorities. -/
structure QueueFamily where
  index : Nat
  count : Nat
  priorities : List Rat
deriving DecidableEq

/-- QueueFamily::single(index) (context.rs). -/
def QueueFamily.single (index : Nat) : QueueFamily :=
  { index := index, count := 1, priorities := [(1 : Rat)] }

/-- context.rs's own QueueSelections struct: one optional family per
operation slot (GRAPHICS 0, COMPUTE 1, TRANSFER 2, PRESENT 3). -/
structure QueueSelections where
  families : List (Option QueueFamily)
deriving DecidableEq

def QueueSelections.GRAPHICS : Nat := 0
def QueueSelections.COMPUTE : Nat := 1
def QueueSelections.TRANSFER : Nat := 2
def QueueSelections.PRESENT : Nat := 3

/-- Embedding of QueueSelections::new (context.rs):
Vec::with_capacity(4) creates an empty vector (length 0, capacity 4) and
fill(None) writes only over the existing length-0 contents, so the
families vector is empty. -/
def QueueSelections.new : QueueSelections :=
  { families := [] }

/-- A Rust Vec index assignment: panics (none) when the index is not
below the current length. -/
def vec_index_set {α : Type} (l : List α) (i : Nat) (a : α) : Option (List α) :=
  if i < l.length then some (l.set i a) else none

/-- Modelled from the spec: extract_unique_pairs comes from the external
eta_algorithms crate, whose source is not in this repository.  Per the
spec's queue-selection policy (section 4.4: deduplicate so each
operation receives exactly one family assignment, the default taking the
first eligible family encountered in enumeration order), it keeps, for
each operation value, its first (operation, family) pair in input
order. -/
def extract_unique_pairs_go (seen : List Nat) : List (Nat × Nat) → List (Nat × Nat)
  | [] => []
  | (op, fam) :: rest =>
    if op ∈ seen then extract_unique_pairs_go seen rest
    else (op, fam) :: extract_unique_pairs_go (op :: seen) rest

/-- Modelled from the spec: see extract_unique_pairs_go. -/
def extract_unique_pairs (queue_operations queue_family : List Nat) : List Nat × List Nat :=
  (extract_unique_pairs_go [] (queue_operations.zip queue_family)).unzip

/-- The assignment loop of default_queue_mapper (context.rs): for each
extracted (operation, family) pair, assign families[slot] for the
recognized operation flags; the Vec index assignment panics (none) when
the slot is out of bounds. -/
def queue_mapper_go (s : QueueSelections) : List (Nat × Nat) → Option QueueSelections
  | [] => some s
  | (operation, family) :: rest =>
    if operation = GRAPHICS_OP then
      (vec_index_set s.families QueueSelections.GRAPHICS (some (QueueFamily.single family))).bind
        (fun f => queue_mapper_go { families := f } rest)
    else if operation = COMPUTE_OP then
      (vec_index_set s.families QueueSelections.COMPUTE (some (QueueFamily.single family))).bind
        (fun f => queue_mapper_go { families := f } rest)
    else if operation = TRANSFER_OP then
      (vec_index_set s.families QueueSelections.TRANSFER (some (QueueFamily.single family))).bind
        (fun f => queue_mapper_go { families := f } rest)
    else if operation = PRESENT_OP then
      (vec_index_set s.families QueueSelections.PRESENT (some (QueueFamily.single family))).bind
        (fun f => queue_mapper_go { families := f } rest)
    else queue_mapper_go s rest

/-- Embedding of default_queue_mapper (context.rs): extract unique
(operation, family) pairs, then run the assignment loop over the zipped
extraction starting from QueueSelections::new(); none models an
index-out-of-bounds panic. -/
def default_queue_mapper (queue_operations queue_family : List Nat) : Option QueueSelections :=
  let (operations, families) := extract_unique_pairs queue_operations queue_family
  queue_mapper_go QueueSelections.new (operations.zip families)

/-- A device reporting a strict superset of the required extensions,
with non-empty surface formats and present modes, on a discrete GPU. -/
def c3_superset_device : PhysicalDeviceDesc :=
  { device := 0
    properties := { device_type := DISCRETE_GPU }
    features := { bits := 0 }
    extensions := ["VK_KHR_swapchain", "VK_KHR_maintenance1"]
    surface_capabilities := 0
    surface_formats := [0]
    present_modes := [0] }

/-- The Vulkan destroy calls this subsystem can issue during teardown. -/
inductive DestroyCall where
  | destroy_debug_utils_messenger
  | destroy_instance
  | destroy_surface
  | destroy_device
deriving DecidableEq

/-- Embedding of Base::drop (base.rs): destroy the debug messenger, then
destroy the instance. -/
def base_drop_calls : List DestroyCall :=
  [DestroyCall.destroy_debug_utils_messenger, DestroyCall.destroy_instance]

/-- Context (context.rs) declares no Drop impl, so dropping it drops its
fields in declaration order: base, surface_instance, surface,
physical_devices, logical_device, then the four queue fields.  Of these
only Base has drop glue that issues Vulkan destroy calls; the ash
wrapper types khr::surface::Instance, vk::SurfaceKHR, ash::Device and
vk::Queue do not destroy their Vulkan objects when dropped.  The traces
of the non-Base fields are therefore empty. -/
def surface_instance_drop_calls : List DestroyCall := []
def surface_drop_calls : List DestroyCall := []
def physical_devices_drop_calls : List DestroyCall := []
def logical_device_drop_calls : List DestroyCall := []
def queue_fields_drop_calls : List DestroyCall := []

/-- The destroy calls issued when a fully constructed Context is
dropped, in field declaration order. -/
def context_drop_calls : List DestroyCall :=
  base_drop_calls ++ surface_instance_drop_calls ++ surface_drop_calls ++
    physical_devices_drop_calls ++ logical_device_drop_calls ++ queue_fields_drop_calls

end Context

/-! ## Theorems -/

section Theorems

open Utils Base Queue Context

/-- Folding HashSet::remove over the reported names, starting from a
duplicate-free requested set, keeps exactly the requested names that are
absent from the reported list. -/
theorem foldl_erase_eq_filter (rep : List String) :
    ∀ acc : List String, acc.Nodup →
      rep.foldl (fun a n => a.erase n) acc = acc.filter (fun x => decide (x ∉ rep)) := by
  induction rep with
  | nil =>
    intro acc _
    simp
  | cons r rest ih =>
    intro acc hacc
    have herase : acc.erase r = acc.filter (fun x => x ≠ r) := by
      rw [List.Nodup.erase_eq_filter hacc r]
      apply List.filter_congr
      intro x _
      simp [bne, Bool.beq_eq_decide_eq]
    calc (r :: rest).foldl (fun a n => a.erase n) acc
        = rest.foldl (fun a n => a.erase n) (acc.erase r) := by simp [List.foldl_cons]
      _ = (acc.erase r).filter (fun x => decide (x ∉ rest)) := ih _ (hacc.erase r)
      _ = acc.filter (fun x => decide (x ∉ r :: rest)) := by
            rw [herase, List.filter_filter]
            apply List.filter_congr
            intro x _
            by_cases hxr : x = r <;> by_cases hxrest : x ∈ rest <;>
              simp [hxr, hxrest]

/-- Claim C5: validate_layer_availability succeeds exactly when the
driver-reported layer list is empty or every requested layer name
appears in it; in particular every requested list that is a subset of
the reported layers is accepted. -/
theorem validate_layer_availability_ok_iff (requested reported : List String) :
    validate_layer_availability requested reported = Except.ok () ↔
      (reported = [] ∨ ∀ l ∈ requested, l ∈ reported) := by
  unfold validate_layer_availability
  by_cases hrep : reported.length = 0
  · simp [hrep, List.length_eq_zero.mp hrep]
  · have hrepne : reported ≠ [] := by
      intro h
      exact hrep (by simp [h])
    rw [foldl_erase_eq_filter reported requested.dedup (List.nodup_dedup requested)]
    by_cases hfil : requested.dedup.filter (fun x => decide (x ∉ reported)) = []
    · have hall : ∀ l ∈ requested, l ∈ reported := by
        intro l hl
        have := List.filter_eq_nil_iff.mp hfil l (List.mem_dedup.mpr hl)
        simpa using this
      simp only [hrep, hfil, if_false, if_true]
      simp only [iff_true, eq_self_iff_true, true_iff]
      try exact Or.inr hall
    · have hnotall : ¬∀ l ∈ requested, l ∈ reported := by
        intro hall
        apply hfil
        rw [List.filter_eq_nil_iff]
        intro a ha
        simp [hall a (List.mem_dedup.mp ha)]
      simp [hrep, hfil, hrepne, hnotall]

/-- Claim C1, counterexample: requesting two layers whose first entry is
the only absent one, the code reports index 1 (requested length minus
number of missing layers), while the first absent requested layer sits
at index 0. -/
theorem validate_layer_availability_not_first_missing :
    validate_layer_availability
        ["FAIL_LAYER", "VK_LAYER_KHRONOS_validation"] ["VK_LAYER_KHRONOS_validation"] =
      Except.error (Error.ValidationLayerNotSupported 1) ∧
    spec_first_missing_index
        ["FAIL_LAYER", "VK_LAYER_KHRONOS_validation"] ["VK_LAYER_KHRONOS_validation"] =
      some 0 :=
  ⟨rfl, rfl⟩

/-- Claim C1, amended: whenever the reported layer list is non-empty and
some requested layer is absent from it, validate_layer_availability
fails with index requested.length minus the number of distinct requested
layers that are absent (which matches the first-absent index only in
special cases such as the absent layers forming a suffix of a
duplicate-free request). -/
theorem validate_layer_availability_offset_formula (requested reported : List String)
    (hrep : reported ≠ []) (hmiss : ∃ l ∈ requested, l ∉ reported) :
    validate_layer_availability requested reported =
      Except.error (Error.ValidationLayerNotSupported
        (requested.length - (requested.dedup.filter (fun x => decide (x ∉ reported))).length)) := by
  unfold validate_layer_availability
  have hlen : ¬reported.length = 0 := by simpa using hrep
  rw [foldl_erase_eq_filter reported requested.dedup (List.nodup_dedup requested)]
  have hfil : requested.dedup.filter (fun x => decide (x ∉ reported)) ≠ [] := by
    obtain ⟨l, hl, hlrep⟩ := hmiss
    intro h
    have := List.filter_eq_nil_iff.mp h l (List.mem_dedup.mpr hl)
    simp [hlrep] at this
  simp only [hlen, if_false, hfil, ite_false]
  try simp [hfil]

/-- Witness for validate_layer_availability_offset_formula at the
counterexample input. -/
theorem validate_layer_availability_offset_formula_witness :
    validate_layer_availability
        ["FAIL_LAYER", "VK_LAYER_KHRONOS_validation"] ["VK_LAYER_KHRONOS_validation"] =
      Except.error (Error.ValidationLayerNotSupported
        ((["FAIL_LAYER", "VK_LAYER_KHRONOS_validation"] : List String).length -
          ((["FAIL_LAYER", "VK_LAYER_KHRONOS_validation"] : List String).dedup.filter
            (fun x => decide (x ∉ (["VK_LAYER_KHRONOS_validation"] : List String)))).length)) :=
  validate_layer_availability_offset_formula _ _ (by decide)
    ⟨"FAIL_LAYER", by decide, by decide⟩

/-- Claim C8: on every "major.minor.patch" string whose three components
parse as u32 and fit the packed widths (7, 10 and 12 bits), to_version
returns exactly the spec's reference packing with variant 0; in
particular "1.0.0" and "1.2.3" match the formula at (1,0,0) and
(1,2,3). -/
theorem to_version_matches_reference_packing :
    (∀ (s a b c : String) (major minor patch : Nat),
        split_on_dot s = [a, b, c] →
        parse_u32 a = some major → parse_u32 b = some minor → parse_u32 c = some patch →
        major < 2 ^ 7 → minor < 2 ^ 10 → patch < 2 ^ 12 →
        to_version s = some (reference_packing 0 major minor patch)) ∧
    to_version ("1.0.0") = some (reference_packing 0 1 0 0) ∧
    to_version ("1.2.3") = some (reference_packing 0 1 2 3) := by
  have h100 : to_version ("1.0.0") = some (reference_packing 0 1 0 0) := by decide
  have h123 : to_version ("1.2.3") = some (reference_packing 0 1 2 3) := by decide
  refine ⟨?_, h100, h123⟩
  intro s a b c major minor patch hsplit ha hb hc hmaj hmin hpat
  have hparse_bound : patch < 2 ^ 32 := by
    calc patch < 2 ^ 12 := hpat
      _ < 2 ^ 32 := by norm_num
  unfold to_version
  rw [hsplit]
  simp only [List.getElem?_cons_zero, List.getElem?_cons_succ, Option.bind_eq_bind,
    Option.some_bind, ha, hb, hc]
  simp only [Option.pure_def, Option.some_inj]
  unfold make_api_version reference_packing
  have h1 : (0 <<< 29) % 2 ^ 32 = 0 <<< 29 := by norm_num
  have h2 : (major <<< 22) % 2 ^ 32 = major <<< 22 := by
    apply Nat.mod_eq_of_lt
    rw [Nat.shiftLeft_eq]
    calc major * 2 ^ 22 < 2 ^ 7 * 2 ^ 22 := by
          exact Nat.mul_lt_mul_of_lt_of_le hmaj (le_refl _) (by norm_num)
      _ ≤ 2 ^ 32 := by norm_num
  have h3 : (minor <<< 12) % 2 ^ 32 = minor <<< 12 := by
    apply Nat.mod_eq_of_lt
    rw [Nat.shiftLeft_eq]
    calc minor * 2 ^ 12 < 2 ^ 10 * 2 ^ 12 := by
          exact Nat.mul_lt_mul_of_lt_of_le hmin (le_refl _) (by norm_num)
      _ ≤ 2 ^ 32 := by norm_num
  have h4 : patch % 2 ^ 32 = patch := Nat.mod_eq_of_lt hparse_bound
  rw [h1, h2, h3, h4]

/-- Witness for to_version_matches_reference_packing at "1.2.3". -/
theorem to_version_matches_reference_packing_witness :
    to_version ("1.2.3") = some (reference_packing 0 1 2 3) :=
  to_version_matches_reference_packing.1 "1.2.3" "1" "2" "3" 1 2 3 rfl rfl rfl rfl
    (by norm_num) (by norm_num) (by norm_num)

/-- Claim C9, counterexample: the claim says malformed versions and
embedded-null strings produce typed recoverable error results, but the
Rust signatures (u32 and CString) have no error channel: to_version
unwraps its parses, so "1.0" panics (modelled by none) instead of
returning a ParseError, to_c_str unwraps CString::new, so an
embedded-null string panics instead of returning an EncodingError — and
a non-numeric fourth component is silently ignored rather than an
error. -/
theorem to_version_to_c_str_panic_counterexample :
    to_version ("1.0") = none ∧
    to_c_str ("a\x00b") = none ∧
    to_version ("1.2.3.xyz") = some (make_api_version 0 1 2 3) :=
  ⟨rfl, rfl, rfl⟩

/-- Claim C9, amended: on a version string with fewer than three
dot-separated components, or whose first three components include one
that fails u32 parsing, to_version panics (modelled by none) rather than
returning a typed error; and to_c_str panics on every string holding an
interior NUL character. -/
theorem to_version_to_c_str_panic (s t : String)
    (hs : (split_on_dot s).length < 3 ∨
      ∃ i, i < 3 ∧ ∃ p, (split_on_dot s)[i]? = some p ∧ parse_u32 p = none)
    (ht : Char.ofNat 0 ∈ t.data) :
    to_version s = none ∧ to_c_str t = none := by
  constructor
  · unfold to_version
    rcases hs with hlen | ⟨i, hi, p, hp, hparse⟩
    · have h2 : (split_on_dot s)[2]? = none := List.getElem?_eq_none (by omega)
      cases h0 : (split_on_dot s)[0]? with
      | none => simp [h0]
      | some p0 =>
        cases hp0 : parse_u32 p0 with
        | none => simp [h0, hp0]
        | some v0 =>
          cases h1 : (split_on_dot s)[1]? with
          | none => simp [h0, hp0, h1]
          | some p1 =>
            cases hp1 : parse_u32 p1 with
            | none => simp [h0, hp0, h1, hp1]
            | some v1 => simp [h0, hp0, h1, hp1, h2]
    · interval_cases i
      · simp [hp, hparse]
      · cases h0 : (split_on_dot s)[0]? with
        | none => simp [h0]
        | some p0 =>
          cases hp0 : parse_u32 p0 with
          | none => simp [h0, hp0]
          | some v0 => simp [h0, hp0, hp, hparse]
      · cases h0 : (split_on_dot s)[0]? with
        | none => simp [h0]
        | some p0 =>
          cases hp0 : parse_u32 p0 with
          | none => simp [h0, hp0]
          | some v0 =>
            cases h1 : (split_on_dot s)[1]? with
            | none => simp [h0, hp0, h1]
            | some p1 =>
              cases hp1 : parse_u32 p1 with
              | none => simp [h0, hp0, h1, hp1]
              | some v1 => simp [h0, hp0, h1, hp1, hp, hparse]
  · unfold to_c_str
    simp only [List.elem_eq_mem, decide_eq_true_eq]
    rw [if_pos ht]

/-- Witness for to_version_to_c_str_panic at the counterexample
inputs. -/
theorem to_version_to_c_str_panic_witness :
    to_version ("1.0") = none ∧ to_c_str ("a\x00b") = none :=
  to_version_to_c_str_panic "1.0" "a\x00b" (Or.inl (by decide)) (by decide)

/-- Claim C10, counterexample: the claim requires the logical device's
and the surface's destroy calls to be issued exactly once during Context
destruction, but the drop trace contains neither — Context has no Drop
impl and only Base's drop glue issues destroy calls. -/
theorem context_drop_missing_device_and_surface :
    context_drop_calls.count DestroyCall.destroy_device = 0 ∧
    context_drop_calls.count DestroyCall.destroy_surface = 0 :=
  ⟨rfl, rfl⟩

/-- Claim C10, amended: destroying a fully constructed Context issues
only Base's teardown — the debug messenger's destroy call followed by
the instance's destroy call, each exactly once; no destroy call is ever
issued for the logical device or the surface. -/
theorem context_drop_calls_spec :
    context_drop_calls =
      [DestroyCall.destroy_debug_utils_messenger, DestroyCall.destroy_instance] ∧
    context_drop_calls.count DestroyCall.destroy_debug_utils_messenger = 1 ∧
    context_drop_calls.count DestroyCall.destroy_instance = 1 :=
  ⟨rfl, rfl, rfl⟩

/-- Claim C3: the claim (and the spec) retain a device whenever every
required extension is reported, the surface lists are non-empty and the
mapper accepts it — so a device reporting a strict superset of the
required extensions must pass.  The code instead returns false from
validate_physical_device_extensions as soon as it meets a reported
extension outside the required set, so this device is dropped from the
enumeration even though it meets every stated condition. -/
theorem superset_device_wrongly_rejected :
    validate_physical_device_extensions ["VK_KHR_swapchain"] c3_superset_device.extensions =
      false ∧
    obtain_physical_devices default_device_mapper ["VK_KHR_swapchain"] [c3_superset_device] =
      [] ∧
    "VK_KHR_swapchain" ∈ c3_superset_device.extensions ∧
    c3_superset_device.surface_formats ≠ [] ∧
    c3_superset_device.present_modes ≠ [] ∧
    default_device_mapper c3_superset_device.properties c3_superset_device.features =
      some PhysicalDeviceFeatures.default := by
  refine ⟨rfl, rfl, by decide, by decide, by decide, rfl⟩

/-- Claim C4: the claim requires QueueSelections::new (context.rs) to
produce a families vector of length at least 4 so that
default_queue_mapper's slot assignments stay in bounds; the code's
Vec::with_capacity(4) followed by fill(None) leaves length 0, so the
very first recognized operation makes the slot assignment panic out of
bounds (modelled by none). -/
theorem default_queue_mapper_out_of_bounds :
    Context.QueueSelections.new.families.length = 0 ∧
    default_queue_mapper [GRAPHICS_OP] [0] = none :=
  ⟨rfl, rfl⟩

/-- Helper: a replicate of none never yields an assigned slot. -/
theorem replicate_none_getElem {α : Type} {n i : Nat} {a : α}
    (h : (List.replicate n (none : Option α))[i]? = some (some a)) : False := by
  rw [List.getElem?_replicate] at h
  split at h <;> simp at h

/-- The invariant holds in the initial state. -/
theorem inv_new (n : Nat) : Inv (Queue.QueueSelections.new n) := by
  refine ⟨?_, ?_, ?_⟩
  · intro i h hget
    exact (replicate_none_getElem hget).elim
  · intro i j h1 h2 hij hi hj hidx
    exact (replicate_none_getElem hi).elim
  · intro f qf hf
    exact (replicate_none_getElem hf).elim

/-- The invariant is preserved by every non-panicking
insert_operation call. -/
theorem inv_step {s s' : Queue.QueueSelections} {operation family_index : Nat}
    {r : Except String Unit} (hInv : Inv s)
    (hstep : insert_operation s operation family_index = some (s', r)) : Inv s' := by
  obtain ⟨inv1, inv2, inv3⟩ := hInv
  unfold insert_operation at hstep
  cases hop : s.operations[operation]? with
  | none => rw [hop] at hstep; cases hstep
  | some o =>
    rw [hop] at hstep
    cases o with
    | some h0 =>
      injection hstep with hpair
      injection hpair with hs hr
      subst hs
      exact ⟨inv1, inv2, inv3⟩
    | none =>
      obtain ⟨hoplt, -⟩ := List.getElem?_eq_some_iff.mp hop
      cases hfam : s.families[family_index]? with
      | none => rw [hfam] at hstep; cases hstep
      | some fo =>
        rw [hfam] at hstep
        obtain ⟨hfamlt, -⟩ := List.getElem?_eq_some_iff.mp hfam
        cases fo with
        | some qf =>
          injection hstep with hpair
          injection hpair with hs hr
          subst hs
          refine ⟨?_, ?_, ?_⟩
          · intro i h hget
            by_cases hio : i = operation
            · subst hio
              rw [List.getElem?_set_self hoplt] at hget
              obtain rfl : ({ index := family_index, offset := qf.count } : QueueFamilyHandle) = h :=
                Option.some.inj (Option.some.inj hget)
              refine ⟨{ count := qf.count + 1, priorities := qf.priorities ++ [(1 : Rat)] }, ?_, ?_⟩
              · exact List.getElem?_set_self hfamlt
              · exact Nat.lt_succ_self _
            · rw [List.getElem?_set_ne (fun hh => hio hh.symm)] at hget
              obtain ⟨qf0, hqf0, hoff⟩ := inv1 i h hget
              by_cases hidx : h.index = family_index
              · rw [hidx, hfam] at hqf0
                obtain rfl : qf = qf0 := Option.some.inj (Option.some.inj hqf0)
                refine ⟨{ count := qf.count + 1, priorities := qf.priorities ++ [(1 : Rat)] }, ?_, ?_⟩
                · rw [hidx]
                  exact List.getElem?_set_self hfamlt
                · exact Nat.lt_succ_of_lt hoff
              · refine ⟨qf0, ?_, hoff⟩
                rw [List.getElem?_set_ne (fun hh => hidx hh.symm)]
                exact hqf0
          · intro i j h1 h2 hij hi hj hidx
            by_cases hio : i = operation <;> by_cases hjo : j = operation
            · exact absurd (hio.trans hjo.symm) hij
            · subst hio
              rw [List.getElem?_set_self hoplt] at hi
              obtain rfl : ({ index := family_index, offset := qf.count } : QueueFamilyHandle) = h1 :=
                Option.some.inj (Option.some.inj hi)
              rw [List.getElem?_set_ne (fun hh => hjo hh.symm)] at hj
              obtain ⟨qf0, hqf0, hoff⟩ := inv1 j h2 hj
              rw [← hidx, hfam] at hqf0
              obtain rfl : qf = qf0 := Option.some.inj (Option.some.inj hqf0)
              intro heq
              rw [← heq] at hoff
              exact absurd hoff (Nat.lt_irrefl _)
            · subst hjo
              rw [List.getElem?_set_self hoplt] at hj
              obtain rfl : ({ index := family_index, offset := qf.count } : QueueFamilyHandle) = h2 :=
                Option.some.inj (Option.some.inj hj)
              rw [List.getElem?_set_ne (fun hh => hio hh.symm)] at hi
              obtain ⟨qf0, hqf0, hoff⟩ := inv1 i h1 hi
              rw [hidx, hfam] at hqf0
              obtain rfl : qf = qf0 := Option.some.inj (Option.some.inj hqf0)
              intro heq
              rw [heq] at hoff
              exact absurd hoff (Nat.lt_irrefl _)
            · rw [List.getElem?_set_ne (fun hh => hio hh.symm)] at hi
              rw [List.getElem?_set_ne (fun hh => hjo hh.symm)] at hj
              exact inv2 i j h1 h2 hij hi hj hidx
          · intro f qf0 hf
            by_cases hff : f = family_index
            · subst hff
              rw [List.getElem?_set_self hfamlt] at hf
              obtain rfl : ({ count := qf.count + 1, priorities := qf.priorities ++ [(1 : Rat)] } : Queue.QueueFamily) = qf0 :=
                Option.some.inj (Option.some.inj hf)
              obtain ⟨hc, hlen⟩ := inv3 f qf hfam
              constructor
              · exact Nat.le_succ_of_le hc
              · simp [hlen]
            · rw [List.getElem?_set_ne (fun hh => hff hh.symm)] at hf
              exact inv3 f qf0 hf
        | none =>
          injection hstep with hpair
          injection hpair with hs hr
          subst hs
          refine ⟨?_, ?_, ?_⟩
          · intro i h hget
            by_cases hio : i = operation
            · subst hio
              rw [List.getElem?_set_self hoplt] at hget
              obtain rfl : ({ index := family_index, offset := 0 } : QueueFamilyHandle) = h :=
                Option.some.inj (Option.some.inj hget)
              refine ⟨QueueFamily.single, ?_, ?_⟩
              · exact List.getElem?_set_self hfamlt
              · exact Nat.zero_lt_one
            · rw [List.getElem?_set_ne (fun hh => hio hh.symm)] at hget
              obtain ⟨qf0, hqf0, hoff⟩ := inv1 i h hget
              have hidx : h.index ≠ family_index := by
                intro hh
                rw [hh, hfam] at hqf0
                simp at hqf0
              refine ⟨qf0, ?_, hoff⟩
              rw [List.getElem?_set_ne (fun hh => hidx hh.symm)]
              exact hqf0
          · intro i j h1 h2 hij hi hj hidx
            by_cases hio : i = operation <;> by_cases hjo : j = operation
            · exact absurd (hio.trans hjo.symm) hij
            · subst hio
              rw [List.getElem?_set_self hoplt] at hi
              obtain rfl : ({ index := family_index, offset := 0 } : QueueFamilyHandle) = h1 :=
                Option.some.inj (Option.some.inj hi)
              rw [List.getElem?_set_ne (fun hh => hjo hh.symm)] at hj
              obtain ⟨qf0, hqf0, hoff⟩ := inv1 j h2 hj
              rw [← hidx, hfam] at hqf0
              simp at hqf0
            · subst hjo
              rw [List.getElem?_set_self hoplt] at hj
              obtain rfl : ({ index := family_index, offset := 0 } : QueueFamilyHandle) = h2 :=
                Option.some.inj (Option.some.inj hj)
              rw [List.getElem?_set_ne (fun hh => hio hh.symm)] at hi
              obtain ⟨qf0, hqf0, hoff⟩ := inv1 i h1 hi
              rw [hidx, hfam] at hqf0
              simp at hqf0
            · rw [List.getElem?_set_ne (fun hh => hio hh.symm)] at hi
              rw [List.getElem?_set_ne (fun hh => hjo hh.symm)] at hj
              exact inv2 i j h1 h2 hij hi hj hidx
          · intro f qf0 hf
            by_cases hff : f = family_index
            · subst hff
              rw [List.getElem?_set_self hfamlt] at hf
              obtain rfl : (Queue.QueueFamily.single : Queue.QueueFamily) = qf0 :=
                Option.some.inj (Option.some.inj hf)
              exact ⟨Nat.le_refl 1, rfl⟩
            · rw [List.getElem?_set_ne (fun hh => hff hh.symm)] at hf
              exact inv3 f qf0 hf

/-- Every reachable state satisfies the invariant. -/
theorem reachable_inv {s : Queue.QueueSelections} (h : Reachable s) : Inv s := by
  induction h with
  | init n => exact inv_new n
  | step hr hstep ih => exact inv_step ih hstep

/-- Claim C2: insert_operation fails (leaving the state as it was) when
the operation is already assigned; with a fresh operation and an
existing family of count n it assigns (family_index, n), bumps the count
to n + 1 and appends a 1.0 priority; with a fresh operation and no
allocation for the family it creates a single-queue family with
priorities [1.0] and assigns (family_index, 0). -/
theorem insert_operation_spec (s : Queue.QueueSelections) (operation family_index : Nat) :
    (∀ h0 : QueueFamilyHandle, s.operations[operation]? = some (some h0) →
        insert_operation s operation family_index =
          some (s, Except.error ("Operation already exists!"))) ∧
    (∀ qf : Queue.QueueFamily, s.operations[operation]? = some none →
        s.families[family_index]? = some (some qf) →
        insert_operation s operation family_index =
          some ({ families := s.families.set family_index
                    (some { count := qf.count + 1, priorities := qf.priorities ++ [(1 : Rat)] }),
                  operations := s.operations.set operation
                    (some { index := family_index, offset := qf.count }) }, Except.ok ()) ∧
        (s.operations.set operation
            (some { index := family_index, offset := qf.count }))[operation]? =
          some (some { index := family_index, offset := qf.count }) ∧
        (s.families.set family_index
            (some { count := qf.count + 1, priorities := qf.priorities ++ [(1 : Rat)] }))[family_index]? =
          some (some { count := qf.count + 1, priorities := qf.priorities ++ [(1 : Rat)] })) ∧
    (s.operations[operation]? = some none → s.families[family_index]? = some none →
        insert_operation s operation family_index =
          some ({ families := s.families.set family_index (some Queue.QueueFamily.single),
                  operations := s.operations.set operation
                    (some { index := family_index, offset := 0 }) }, Except.ok ())) := by
  refine ⟨?_, ?_, ?_⟩
  · intro h0 hop
    unfold insert_operation
    rw [hop]
  · intro qf hop hfam
    obtain ⟨hoplt, -⟩ := List.getElem?_eq_some_iff.mp hop
    obtain ⟨hfamlt, -⟩ := List.getElem?_eq_some_iff.mp hfam
    refine ⟨?_, ?_, ?_⟩
    · unfold insert_operation
      rw [hop, hfam]
    · exact List.getElem?_set_self hoplt
    · exact List.getElem?_set_self hfamlt
  · intro hop hfam
    unfold insert_operation
    rw [hop, hfam]

/-- Witness for insert_operation_spec: inserting operation 0 into family
0 of the fresh two-family state creates a single-queue allocation at
offset 0. -/
theorem insert_operation_spec_witness :
    insert_operation (Queue.QueueSelections.new 2) 0 0 =
      some ({ families := (Queue.QueueSelections.new 2).families.set 0
                (some Queue.QueueFamily.single),
              operations := (Queue.QueueSelections.new 2).operations.set 0
                (some { index := 0, offset := 0 }) }, Except.ok ()) :=
  (insert_operation_spec (Queue.QueueSelections.new 2) 0 0).2.2 rfl rfl

/-- Claim C6: in every state reachable by insert_operation calls, no two
distinct operations hold the same (family index, offset) pair, and after
an insert succeeds for an operation, inserting that operation again
fails with the already-assigned error and an unchanged state. -/
theorem insert_operation_no_collision :
    (∀ s : Queue.QueueSelections, Reachable s →
        ∀ (i j : Nat) (h1 h2 : QueueFamilyHandle), i ≠ j →
          s.operations[i]? = some (some h1) → s.operations[j]? = some (some h2) →
          ¬(h1.index = h2.index ∧ h1.offset = h2.offset)) ∧
    (∀ (s s' : Queue.QueueSelections) (operation family_index : Nat),
        insert_operation s operation family_index = some (s', Except.ok ()) →
        ∀ family_index2 : Nat,
          insert_operation s' operation family_index2 =
            some (s', Except.error ("Operation already exists!"))) := by
  constructor
  · intro s hr i j h1 h2 hij hi hj hpair
    exact (reachable_inv hr).2.1 i j h1 h2 hij hi hj hpair.1 hpair.2
  · intro s s' operation family_index hok family_index2
    unfold insert_operation at hok
    cases hop : s.operations[operation]? with
    | none => rw [hop] at hok; cases hok
    | some o =>
      rw [hop] at hok
      cases o with
      | some h0 =>
        injection hok with hpair
        injection hpair with hs hr
        cases hr
      | none =>
        obtain ⟨hoplt, -⟩ := List.getElem?_eq_some_iff.mp hop
        cases hfam : s.families[family_index]? with
        | none => rw [hfam] at hok; cases hok
        | some fo =>
          rw [hfam] at hok
          cases fo with
          | some qf =>
            injection hok with hpair
            injection hpair with hs hr
            subst hs
            unfold insert_operation
            rw [List.getElem?_set_self hoplt]
          | none =>
            injection hok with hpair
            injection hpair with hs hr
            subst hs
            unfold insert_operation
            rw [List.getElem?_set_self hoplt]

/-- Witness for insert_operation_no_collision: the two handles assigned
after inserting operations 0 and 1 into family 0 do not coincide, and
re-inserting operation 0 in the one-operation state fails with the
already-assigned error. -/
theorem insert_operation_no_collision_witness :
    ¬(({ index := 0, offset := 0 } : QueueFamilyHandle).index =
        ({ index := 0, offset := 1 } : QueueFamilyHandle).index ∧
      ({ index := 0, offset := 0 } : QueueFamilyHandle).offset =
        ({ index := 0, offset := 1 } : QueueFamilyHandle).offset) ∧
    insert_operation example_state1 0 5 =
      some (example_state1, Except.error ("Operation already exists!")) := by
  constructor
  · exact insert_operation_no_collision.1 example_state2
      (Reachable.step
        (@Reachable.step (Queue.QueueSelections.new 2) example_state1 0 0 (Except.ok ())
          (Reachable.init 2) rfl)
        (rfl : insert_operation example_state1 1 0 = some (example_state2, Except.ok ())))
      0 1 { index := 0, offset := 0 } { index := 0, offset := 1 } (by decide) rfl rfl
  · exact insert_operation_no_collision.2 (Queue.QueueSelections.new 2) example_state1 0 0 rfl 5

/-- Helper: membership in the create-info list corresponds exactly to an
allocated family at the matching shifted index. -/
theorem creation_info_aux_mem (c : Nat) (p : List Rat) :
    ∀ (fl : List (Option Queue.QueueFamily)) (k i : Nat),
      ({ queue_family_index := i, queue_count := c, queue_priorities := p } :
          DeviceQueueCreateInfo) ∈ creation_info_aux k fl ↔
        ∃ j, fl[j]? = some (some { count := c, priorities := p }) ∧ i = k + j := by
  intro fl
  induction fl with
  | nil =>
    intro k i
    simp [creation_info_aux]
  | cons hd tl ih =>
    intro k i
    cases hd with
    | none =>
      rw [show creation_info_aux k (none :: tl) = creation_info_aux (k + 1) tl from rfl]
      rw [ih (k + 1) i]
      constructor
      · rintro ⟨j, hj, hk⟩
        exact ⟨j + 1, by simpa using hj, by omega⟩
      · rintro ⟨j, hj, hk⟩
        cases j with
        | zero => simp at hj
        | succ j' => exact ⟨j', by simpa using hj, by omega⟩
    | some qf =>
      rw [show creation_info_aux k (some qf :: tl) =
          { queue_family_index := k, queue_count := qf.count, queue_priorities := qf.priorities } ::
            creation_info_aux (k + 1) tl from rfl]
      rw [List.mem_cons, ih (k + 1) i]
      constructor
      · rintro (heq | ⟨j, hj, hk⟩)
        · obtain ⟨rfl, rfl, rfl⟩ : i = k ∧ c = qf.count ∧ p = qf.priorities := by
            injection heq with e1 e2 e3
            exact ⟨e1, e2, e3⟩
          exact ⟨0, by simp, by omega⟩
        · exact ⟨j + 1, by simpa using hj, by omega⟩
      · rintro ⟨j, hj, hk⟩
        cases j with
        | zero =>
          left
          obtain rfl : qf = { count := c, priorities := p } := by
            have := Option.some.inj (Option.some.inj (by simpa using hj))
            exact this
          obtain rfl : i = k := by omega
          rfl
        | succ j' => exact Or.inr ⟨j', by simpa using hj, by omega⟩

/-- Helper: every entry of the create-info loop carries an index at
least the running enumeration index. -/
theorem creation_info_aux_le :
    ∀ (fl : List (Option Queue.QueueFamily)) (k : Nat) (e : DeviceQueueCreateInfo),
      e ∈ creation_info_aux k fl → k ≤ e.queue_family_index := by
  intro fl
  induction fl with
  | nil =>
    intro k e he
    simp [creation_info_aux] at he
  | cons hd tl ih =>
    intro k e he
    cases hd with
    | none =>
      rw [show creation_info_aux k (none :: tl) = creation_info_aux (k + 1) tl from rfl] at he
      exact Nat.le_of_succ_le (ih (k + 1) e he)
    | some qf =>
      rw [show creation_info_aux k (some qf :: tl) =
          { queue_family_index := k, queue_count := qf.count, queue_priorities := qf.priorities } ::
            creation_info_aux (k + 1) tl from rfl] at he
      rcases List.mem_cons.mp he with heq | htl
      · rw [heq]
      · exact Nat.le_of_succ_le (ih (k + 1) e htl)

/-- Helper: the create-info loop produces entries with strictly
ascending family indices. -/
theorem creation_info_aux_pairwise :
    ∀ (fl : List (Option Queue.QueueFamily)) (k : Nat),
      (creation_info_aux k fl).Pairwise
        (fun a b => a.queue_family_index < b.queue_family_index) := by
  intro fl
  induction fl with
  | nil =>
    intro k
    exact List.Pairwise.nil
  | cons hd tl ih =>
    intro k
    cases hd with
    | none =>
      exact ih (k + 1)
    | some qf =>
      rw [show creation_info_aux k (some qf :: tl) =
          { queue_family_index := k, queue_count := qf.count, queue_priorities := qf.priorities } ::
            creation_info_aux (k + 1) tl from rfl]
      refine List.Pairwise.cons ?_ (ih (k + 1))
      intro b hb
      exact Nat.lt_of_succ_le (creation_info_aux_le tl (k + 1) b hb)

/-- Claim C7: on every reachable QueueSelections state,
to_vk_creation_info lists exactly the allocated families — an entry with
a given family index, count and priorities appears iff that family holds
that allocation — in strictly ascending family-index order, and every
listed allocation is non-empty (count at least one). -/
theorem to_vk_creation_info_spec (s : Queue.QueueSelections) (hreach : Reachable s) :
    (∀ (i c : Nat) (p : List Rat),
        ({ queue_family_index := i, queue_count := c, queue_priorities := p } :
            DeviceQueueCreateInfo) ∈ to_vk_creation_info s ↔
          s.families[i]? = some (some { count := c, priorities := p })) ∧
    (to_vk_creation_info s).Pairwise
      (fun a b => a.queue_family_index < b.queue_family_index) ∧
    (∀ e ∈ to_vk_creation_info s, 1 ≤ e.queue_count) := by
  refine ⟨?_, creation_info_aux_pairwise s.families 0, ?_⟩
  · intro i c p
    rw [show to_vk_creation_info s = creation_info_aux 0 s.families from rfl]
    rw [creation_info_aux_mem c p s.families 0 i]
    constructor
    · rintro ⟨j, hj, hij⟩
      rw [show i = j from by omega]
      exact hj
    · intro hfi
      exact ⟨i, hfi, by omega⟩
  · intro e he
    cases e with
    | mk i c p =>
      rw [show to_vk_creation_info s = creation_info_aux 0 s.families from rfl] at he
      obtain ⟨j, hj, -⟩ := (creation_info_aux_mem c p s.families 0 i).mp he
      exact ((reachable_inv hreach).2.2 j { count := c, priorities := p } hj).1

/-- Witness for to_vk_creation_info_spec at the one-insert state. -/
theorem to_vk_creation_info_spec_witness :
    (({ queue_family_index := 0, queue_count := 1, queue_priorities := [(1 : Rat)] } :
        DeviceQueueCreateInfo) ∈ to_vk_creation_info example_state1 ↔
      example_state1.families[0]? =
        some (some { count := 1, priorities := [(1 : Rat)] })) :=
  (to_vk_creation_info_spec example_state1
      (@Reachable.step (Queue.QueueSelections.new 2) example_state1 0 0 (Except.ok ())
        (Reachable.init 2) rfl)).1 0 1 [(1 : Rat)]

end Theorems

end Eikon
